import Mathlib

/-!
Shallow embedding of the go-fsm library (package fsm): a scriptable
finite-state machine engine driven by Tengo-script callables.

The embedding follows the Go sources:
  * builder.go        — Builder, State, Transition, Validate, Compile
  * state_machine.go  — StateMachine, Run, eval, doTransition, invoke
  * scripts.go        — the fixed invoke/retrieve wrapper scripts

The Tengo interpreter itself is an external collaborator; it is modelled
abstractly by a UserScript record: whether the user script compiles, what
the validation probe (retrieveScript) reports for each exported name, and
what invoking user[fn](src, dst, v) produces.  Concrete Tengo values are
modelled by the inductive Value, with tengo truthiness (IsFalsy) and the
error-object check performed by StateMachine.invoke.

Execution is instrumented with a trace of callable invocations (CallRec)
so that ordering and never-invoked properties are provable; the trace is
a pure observation and does not influence control flow.  Run is given
explicit fuel, since the Go loop has no iteration bound.
-/

namespace fsm

/-- Model of a Tengo data value threaded through the machine. -/
inductive Value where
  | undefined : Value
  | intV : Int → Value
  | boolV : Bool → Value
  | strV : String → Value
  | errorV : Value → Value
deriving DecidableEq, Repr

/-- Tengo objects.Object.IsFalsy for the modelled value constructors. -/
def Value.isFalsy : Value → Bool
  | .undefined => true
  | .intV n => n == 0
  | .boolV b => !b
  | .strV s => s == ""
  | .errorV _ => true

/-- script.Variable.Bool(): the truthiness of the value (not IsFalsy). -/
def Value.toBool (v : Value) : Bool := !v.isFalsy

/-- script.Variable.IsUndefined(). -/
def Value.isUndefined : Value → Bool
  | .undefined => true
  | _ => false

/-- Rendering used by tengo objects' String(); only the error-object case
is relied upon (StateMachine.invoke calls errors.New(out.String())). -/
def Value.render : Value → String
  | .undefined => "<undefined>"
  | .intV n => toString n
  | .boolV b => if b then "true" else "false"
  | .strV s => "\"" ++ s ++ "\""
  | .errorV v => "error: " ++ v.render

/-- A transition record (struct transition: dst, condition, action). -/
structure transition where
  dst : String
  condition : String
  action : String
deriving DecidableEq, Repr

/-- Go map[string]string as an association list with unique keys kept by
construction; lookup of an absent key yields the zero value "". -/
abbrev FuncMap := List (String × String)

def mapLookup (m : FuncMap) (k : String) : Option String :=
  (m.find? (fun p => p.1 == k)).map (·.2)

/-- Go map read m[k]: zero value "" when the key is absent. -/
def mapGet (m : FuncMap) (k : String) : String := (mapLookup m k).getD ""

/-- Go map write m[k] = v: replace an existing binding or append a new one. -/
def mapInsert (m : FuncMap) (k v : String) : FuncMap :=
  if (m.find? (fun p => p.1 == k)).isSome then
    m.map (fun p => if p.1 == k then (k, v) else p)
  else m ++ [(k, v)]

/-- Go map[string][]*transition as an association list. -/
abbrev TransMap := List (String × List transition)

def tmapLookup (m : TransMap) (k : String) : Option (List transition) :=
  (m.find? (fun p => p.1 == k)).map (·.2)

/-- b.transitions[src] = append(b.transitions[src], t): append to the entry,
creating it (from the nil slice) when absent. -/
def tmapAppend (m : TransMap) (k : String) (t : transition) : TransMap :=
  if (m.find? (fun p => p.1 == k)).isSome then
    m.map (fun p => if p.1 == k then (p.1, p.2 ++ [t]) else p)
  else m ++ [(k, [t])]

/-- What the validation probe (retrieveScript: out := user[fn]) reports for
a name exported by the user script. -/
inductive ProbeOut where
  | execError : String → ProbeOut
  | undefinedV : ProbeOut
  | compiledFunction : Nat → ProbeOut
  | closure : Nat → ProbeOut
  | callable : ProbeOut
  | notCallable : ProbeOut
deriving DecidableEq, Repr

/-- Abstract model of the external Tengo collaborator holding the user
script: whether it compiles, the validation probe, and the effect of
invoking user[fn](src, dst, immutable(v)) (invokeScript).  A call result
of Except.error is a script execution failure; an Except.ok value that is
an error object is a domain error (classified by StateMachine.invoke). -/
structure UserScript where
  compileError : Option String
  probe : String → ProbeOut
  call : String → String → String → Value → Except String Value

/-- Builder (builder.go). -/
structure Builder where
  userScript : UserScript
  entryFns : FuncMap
  exitFns : FuncMap
  transitions : TransMap

/-- New (builder.go). -/
def New (u : UserScript) : Builder := ⟨u, [], [], []⟩

/-- Builder.State: registers/overwrites entry and exit callable names. -/
def Builder.State (b : Builder) (name entryFunc exitFunc : String) : Builder :=
  { b with
    entryFns := mapInsert b.entryFns name entryFunc
    exitFns := mapInsert b.exitFns name exitFunc }

/-- Builder.Transition: appends a transition to the ordered list for src. -/
def Builder.Transition (b : Builder) (src dst condition action : String) : Builder :=
  { b with transitions := tmapAppend b.transitions src ⟨dst, condition, action⟩ }

/-- Wrap a name in single quotes, as the Go fmt.Errorf patterns do. -/
def sq (s : String) : String :=
  String.singleton (Char.ofNat 39) ++ s ++ String.singleton (Char.ofNat 39)

/-- validateFunc (builder.go): probe the compiled retrieve script for the
name and classify the result; None means the name validated. -/
def validateFunc (u : UserScript) (name : String) : Option String :=
  match u.probe name with
  | .execError msg => some ("script execution error: " ++ msg)
  | .undefinedV => some ("function " ++ sq name ++ " not found")
  | .compiledFunction n =>
      if n ≠ 3 then
        some ("function " ++ sq name ++
          " wrong number of arguments: want 3 got " ++ toString n)
      else none
  | .closure n =>
      if n ≠ 3 then
        some ("function " ++ sq name ++
          " wrong number of arguments: want 3 got " ++ toString n)
      else none
  | .callable => none
  | .notCallable => some (sq name ++ " is not callable")

/-- The state-validation loop of Builder.validate: for each declared state
(entry of the entryFns map) check the name is non-empty, then validate its
entry function (when non-empty) and its exit function (when non-empty). -/
def validateStates (u : UserScript) (exitFns : FuncMap) :
    List (String × String) → Option String
  | [] => none
  | (state, entryFunc) :: rest =>
    if state = "" then some "state name must not be empty"
    else
      match (if entryFunc ≠ "" then validateFunc u entryFunc else none) with
      | some e => some e
      | none =>
        match (let exitFunc := mapGet exitFns state
               if exitFunc ≠ "" then validateFunc u exitFunc else none) with
        | some e => some e
        | none => validateStates u exitFns rest

/-- The inner per-transition loop of Builder.validate for source state src:
check the destination is a declared state (reporting src on failure), then
validate the condition and action functions when non-empty. -/
def validateTransList (u : UserScript) (entryFns : FuncMap) (src : String) :
    List transition → Option String
  | [] => none
  | t :: rest =>
    if (mapLookup entryFns t.dst).isNone then
      some ("state " ++ sq src ++ " not found")
    else
      match (if t.condition ≠ "" then validateFunc u t.condition else none) with
      | some e => some e
      | none =>
        match (if t.action ≠ "" then validateFunc u t.action else none) with
        | some e => some e
        | none => validateTransList u entryFns src rest

/-- The transition-validation loop of Builder.validate: for each source
state with a transition list, check it is a declared state, then check
every transition in its list. -/
def validateTrans (u : UserScript) (entryFns : FuncMap) :
    List (String × List transition) → Option String
  | [] => none
  | (src, ts) :: rest =>
    if (mapLookup entryFns src).isNone then
      some ("state " ++ sq src ++ " not found")
    else
      match validateTransList u entryFns src ts with
      | some e => some e
      | none => validateTrans u entryFns rest

/-- Builder.validate (builder.go): compile the validation script (fails iff
the user script fails to compile), then validate states and transitions.
It only reads the Builder; no field is written. -/
def Builder.validate (b : Builder) : Option String :=
  match b.userScript.compileError with
  | some e => some ("failed to compile script: " ++ e)
  | none =>
    match validateStates b.userScript b.exitFns b.entryFns with
    | some e => some e
    | none => validateTrans b.userScript b.entryFns b.transitions

/-- Builder.Validate: delegates to validate. -/
def Builder.Validate (b : Builder) : Option String := b.validate

/-- copyFuncMap (builder.go): copy a function map, skipping empty names. -/
def copyFuncMap (s : FuncMap) : FuncMap := s.filter (fun p => p.2 ≠ "")

/-- StateMachine (state_machine.go): the compiled machine.  call is the
compiled invoke script specialised to the user script. -/
structure StateMachine where
  call : String → String → String → Value → Except String Value
  entryFns : FuncMap
  exitFns : FuncMap
  transitions : TransMap

/-- Builder.compile (builder.go): compile the invoke script (fails iff the
user script fails to compile) and freeze copies of the maps; no state or
transition validation happens here. -/
def Builder.compile (b : Builder) : Except String StateMachine :=
  match b.userScript.compileError with
  | some e => .error ("failed to compile script: " ++ e)
  | none =>
    .ok { call := b.userScript.call
          entryFns := copyFuncMap b.entryFns
          exitFns := copyFuncMap b.exitFns
          transitions := b.transitions.map (fun p => (p.1, [] ++ p.2)) }

/-- Builder.Compile: delegates to compile. -/
def Builder.Compile (b : Builder) : Except String StateMachine := b.compile

/-- One recorded callable invocation: user[fn](src, dst, arg). -/
structure CallRec where
  src : String
  dst : String
  fn : String
  arg : Value
deriving DecidableEq, Repr

/-- StateMachine.invoke: run the invoke script with (src, dst, fn, v); a
script execution error is returned as-is, and an error-object result is
turned into errors.New(out.String()).  The invocation is recorded. -/
def StateMachine.invoke (m : StateMachine) (src dst fn : String) (v : Value) :
    Except String Value × List CallRec :=
  (match m.call src dst fn v with
   | .error e => .error e
   | .ok out =>
     match out with
     | .errorV x => .error (Value.render (.errorV x))
     | _ => .ok out,
   [⟨src, dst, fn, v⟩])

/-- The walk of StateMachine.eval over one transition list: an empty
condition selects the transition at once; otherwise the condition callable
is invoked and its truthiness decides; a falsy result moves to the next
transition; an invocation error aborts. -/
def evalList (m : StateMachine) (src : String) (v : Value) :
    List transition → Except String (Option transition) × List CallRec
  | [] => (.ok none, [])
  | t :: rest =>
    if t.condition = "" then (.ok (some t), [])
    else
      match m.invoke src t.dst t.condition v with
      | (.error e, tr) => (.error e, tr)
      | (.ok out, tr) =>
        if out.toBool then (.ok (some t), tr)
        else
          let (r, tr2) := evalList m src v rest
          (r, tr ++ tr2)

/-- StateMachine.eval: no transition list for src means no transition;
otherwise walk the list in order. -/
def StateMachine.eval (m : StateMachine) (src : String) (v : Value) :
    Except String (Option transition) × List CallRec :=
  match tmapLookup m.transitions src with
  | none => (.ok none, [])
  | some ts => evalList m src v ts

/-- One guarded invocation step of StateMachine.doTransition: skipped when
the function name is empty; otherwise invoke and replace the value by the
result unless the result is undefined. -/
def hookCall (m : StateMachine) (src dst fn : String) (v : Value) :
    Except String Value × List CallRec :=
  if fn = "" then (.ok v, [])
  else
    match m.invoke src dst fn v with
    | (.error e, tr) => (.error e, tr)
    | (.ok out, tr) => (.ok (if out.isUndefined then v else out), tr)

/-- StateMachine.doTransition: exit action of src, then the transition
action, then entry action of dst, each via hookCall, threading the value
and aborting on the first error. -/
def StateMachine.doTransition (m : StateMachine) (src dst action : String)
    (v : Value) : Except String Value × List CallRec :=
  match hookCall m src dst (mapGet m.exitFns src) v with
  | (.error e, t1) => (.error e, t1)
  | (.ok v1, t1) =>
    match hookCall m src dst action v1 with
    | (.error e, t2) => (.error e, t1 ++ t2)
    | (.ok v2, t2) =>
      match hookCall m src dst (mapGet m.entryFns dst) v2 with
      | (.error e, t3) => (.error e, t1 ++ t2 ++ t3)
      | (.ok v3, t3) => (.ok v3, t1 ++ t2 ++ t3)

/-- Outcome of a run: final value, first error, or fuel exhaustion (the Go
loop would still be running). -/
inductive RunRes where
  | ok : Value → RunRes
  | err : String → RunRes
  | diverge : RunRes
deriving DecidableEq, Repr

/-- The loop of StateMachine.Run, with explicit fuel: eval selects a
transition (or the loop breaks), doTransition performs it, and the current
state becomes its destination. -/
def runLoop (m : StateMachine) : Nat → String → Value → RunRes × List CallRec
  | 0, _, _ => (.diverge, [])
  | Nat.succ fuel, src, value =>
    match m.eval src value with
    | (.error e, tr) => (.err e, tr)
    | (.ok none, tr) => (.ok value, tr)
    | (.ok (some t), tr) =>
      match m.doTransition src t.dst t.action value with
      | (.error e, tr2) => (.err e, tr ++ tr2)
      | (.ok v, tr2) =>
        let (r, tr3) := runLoop m fuel t.dst v
        (r, tr ++ tr2 ++ tr3)

/-- StateMachine.Run: convert the initial value (conv is the result of
script.NewVariable on the host value; failure is returned at once), then
run the loop from the start state. -/
def StateMachine.Run (m : StateMachine) (fuel : Nat) (src : String)
    (conv : Except String Value) : RunRes × List CallRec :=
  match conv with
  | .error e => (.err e, [])
  | .ok value => runLoop m fuel src value

/-! ### Helper lemmas shared by several developments -/

theorem invoke_call_ok (m : StateMachine) (src dst fn : String) (v out : Value)
    (h : m.call src dst fn v = .ok out) (hne : ∀ x, out ≠ .errorV x) :
    m.invoke src dst fn v = (.ok out, [⟨src, dst, fn, v⟩]) := by
  unfold StateMachine.invoke
  rw [h]
  cases out with
  | undefined => rfl
  | intV n => rfl
  | boolV b => rfl
  | strV s => rfl
  | errorV x => exact absurd rfl (hne x)

theorem invoke_call_err (m : StateMachine) (src dst fn : String) (v : Value)
    (e : String) (h : m.call src dst fn v = .error e) :
    m.invoke src dst fn v = (.error e, [⟨src, dst, fn, v⟩]) := by
  unfold StateMachine.invoke
  rw [h]

theorem invoke_call_errV (m : StateMachine) (src dst fn : String) (v x : Value)
    (h : m.call src dst fn v = .ok (.errorV x)) :
    m.invoke src dst fn v =
      (.error (Value.render (.errorV x)), [⟨src, dst, fn, v⟩]) := by
  unfold StateMachine.invoke
  rw [h]

theorem hookCall_skip (m : StateMachine) (src dst : String) (v : Value) :
    hookCall m src dst "" v = (.ok v, []) := by
  simp [hookCall]

theorem hookCall_ok (m : StateMachine) (src dst fn : String) (v out : Value)
    (hfn : fn ≠ "") (h : m.call src dst fn v = .ok out)
    (hne : ∀ x, out ≠ .errorV x) :
    hookCall m src dst fn v =
      (.ok (if out.isUndefined then v else out), [⟨src, dst, fn, v⟩]) := by
  simp [hookCall, hfn, invoke_call_ok m src dst fn v out h hne]

theorem hookCall_call_err (m : StateMachine) (src dst fn : String) (v : Value)
    (e : String) (hfn : fn ≠ "") (h : m.call src dst fn v = .error e) :
    hookCall m src dst fn v = (.error e, [⟨src, dst, fn, v⟩]) := by
  simp [hookCall, hfn, invoke_call_err m src dst fn v e h]

theorem hookCall_call_errV (m : StateMachine) (src dst fn : String) (v x : Value)
    (hfn : fn ≠ "") (h : m.call src dst fn v = .ok (.errorV x)) :
    hookCall m src dst fn v =
      (.error (Value.render (.errorV x)), [⟨src, dst, fn, v⟩]) := by
  simp [hookCall, hfn, invoke_call_errV m src dst fn v x h]

theorem tmapAppend_cons_ne (p : String × List transition) (rest : TransMap)
    (k : String) (t : transition) (hp : p.1 ≠ k) :
    tmapAppend (p :: rest) k t = p :: tmapAppend rest k t := by
  by_cases hf : (rest.find? (fun q => q.1 == k)).isSome
  · simp [tmapAppend, List.find?_cons, hp, hf]
  · simp [tmapAppend, List.find?_cons, hp, hf]

theorem tmapLookup_cons_ne (p : String × List transition) (rest : TransMap)
    (k : String) (hp : p.1 ≠ k) :
    tmapLookup (p :: rest) k = tmapLookup rest k := by
  simp [tmapLookup, List.find?_cons, hp]

theorem tmapAppend_lookup (mm : TransMap) (k : String) (t : transition) :
    tmapLookup (tmapAppend mm k t) k =
      some ((tmapLookup mm k).getD [] ++ [t]) := by
  induction mm with
  | nil => simp [tmapAppend, tmapLookup]
  | cons p rest ih =>
    by_cases hp : p.1 = k
    · have hf : ((p :: rest).find? (fun q => q.1 == k)).isSome := by
        simp [List.find?_cons, hp]
      simp [tmapAppend, tmapLookup, List.find?_cons, hp, hf]
    · rw [tmapAppend_cons_ne p rest k t hp, tmapLookup_cons_ne _ _ _ hp,
        tmapLookup_cons_ne p rest k hp]
      exact ih

theorem compile_transitions_eq (b : Builder) (m : StateMachine)
    (h : b.compile = .ok m) : m.transitions = b.transitions := by
  unfold Builder.compile at h
  cases hce : b.userScript.compileError with
  | some e => rw [hce] at h; exact absurd h (by simp)
  | none =>
    rw [hce] at h
    obtain rfl := (Except.ok.injEq _ m).mp h
    simp

/-- The Go method call b.Validate() seen with its receiver: validate only
reads the Builder (builder.go contains no assignment to any field of b),
so the receiver after the call is the receiver before it. -/
def Builder.ValidateCall (b : Builder) : Option String × Builder :=
  (b.validate, b)

/-! ### Claim theorems -/

/-- C9: if the transition table has no entry for the start state, Run
returns the converted initial value with no error and performs zero
callable invocations (empty trace); the start state's existence in the
entry/exit maps is never consulted. -/
theorem C9_run_missing_start_state (m : StateMachine) (fuel : Nat)
    (src : String) (v : Value) (h : tmapLookup m.transitions src = none) :
    m.Run (fuel + 1) src (.ok v) = (.ok v, []) := by
  simp [StateMachine.Run, runLoop, StateMachine.eval, h]

/-- C9 witness: a machine with no transitions for state X (and X not in
the entry map) returns the initial value unchanged with no invocation. -/
theorem C9_run_missing_start_state_witness :
    ({ call := fun _ _ _ v => .ok v
       entryFns := [("S", "enter")]
       exitFns := [("S", "leave")]
       transitions := [("S", [⟨"T", "", ""⟩])] } : StateMachine).Run
      (4 + 1) "X" (.ok (.intV 7)) = (.ok (.intV 7), []) :=
  C9_run_missing_start_state _ 4 "X" (.intV 7) (by decide)

/-- C10: a condition callable returning a Tengo error object aborts the
run: invoke turns an error-object result into an error uniformly for any
callable position, and when the first transition's condition returns an
error object, runLoop returns that error at once with the condition
invocation as the only recorded call — nothing is selected and no
exit/action/entry step runs afterwards. -/
theorem C10_condition_error_aborts :
    (∀ (m : StateMachine) (src dst fn : String) (v x : Value),
      m.call src dst fn v = .ok (.errorV x) →
      m.invoke src dst fn v =
        (.error (Value.render (.errorV x)), [⟨src, dst, fn, v⟩]))
    ∧ (∀ (m : StateMachine) (fuel : Nat) (src : String) (v : Value)
        (t : transition) (rest : List transition) (x : Value),
        tmapLookup m.transitions src = some (t :: rest) →
        t.condition ≠ "" →
        m.call src t.dst t.condition v = .ok (.errorV x) →
        runLoop m (fuel + 1) src v =
          (.err (Value.render (.errorV x)), [⟨src, t.dst, t.condition, v⟩])) := by
  constructor
  · intro m src dst fn v x h
    exact invoke_call_errV m src dst fn v x h
  · intro m fuel src v t rest x hts hc hcall
    simp [runLoop, StateMachine.eval, hts, evalList, hc,
      invoke_call_errV m src t.dst t.condition v x hcall]

/-- C10 witness: a condition that returns error("an error occurred")
makes the run abort with that error after exactly one invocation. -/
theorem C10_condition_error_aborts_witness :
    runLoop
      ({ call := fun _ _ _ _ => .ok (.errorV (.strV "an error occurred"))
         entryFns := [("S", "enter")]
         exitFns := [("S", "leave")]
         transitions := [("S", [⟨"T", "cond", "act"⟩])] } : StateMachine)
      (3 + 1) "S" (.intV 1) =
      (.err (Value.render (.errorV (.strV "an error occurred"))),
       [⟨"S", "T", "cond", .intV 1⟩]) :=
  C10_condition_error_aborts.2 _ 3 "S" (.intV 1) ⟨"T", "cond", "act"⟩ []
    (.strV "an error occurred") (by decide) (by decide) rfl

/-- C8: Validate never mutates the Builder: after the call — whatever its
result — the entry map, exit map, and per-source transition lists are
exactly what they were before. -/
theorem C8_validate_no_mutation (b : Builder) :
    (b.ValidateCall).2.entryFns = b.entryFns
    ∧ (b.ValidateCall).2.exitFns = b.exitFns
    ∧ (b.ValidateCall).2.transitions = b.transitions
    ∧ (b.ValidateCall).1 = b.Validate :=
  ⟨rfl, rfl, rfl, rfl⟩

/-- C5: Compile performs no state/transition validation: whenever the user
script compiles, compile succeeds — for every Builder, whatever dangling
states or callable names its transitions hold; the compiled machine keeps
the builder's transition table verbatim and dispatches through the user
script, so a dangling callable reference surfaces only when Run actually
invokes it, as shown by the run-time error of the third conjunct. -/
theorem C5_compile_no_validation :
    (∀ b : Builder, b.userScript.compileError = none →
      ∃ m : StateMachine, b.Compile = .ok m)
    ∧ (∀ (b : Builder) (m : StateMachine), b.Compile = .ok m →
        m.transitions = b.transitions ∧ m.call = b.userScript.call)
    ∧ (∀ (m : StateMachine) (fuel : Nat) (src dst c a : String)
        (v : Value) (e : String),
        tmapLookup m.transitions src = some [⟨dst, c, a⟩] → c ≠ "" →
        m.call src dst c v = .error e →
        runLoop m (fuel + 1) src v = (.err e, [⟨src, dst, c, v⟩])) := by
  refine ⟨?_, ?_, ?_⟩
  · intro b h
    refine ⟨{ call := b.userScript.call
              entryFns := copyFuncMap b.entryFns
              exitFns := copyFuncMap b.exitFns
              transitions := b.transitions.map (fun p => (p.1, [] ++ p.2)) }, ?_⟩
    simp [Builder.Compile, Builder.compile, h]
  · intro b m h
    refine ⟨compile_transitions_eq b m h, ?_⟩
    unfold Builder.Compile Builder.compile at h
    cases hce : b.userScript.compileError with
    | some e => rw [hce] at h; exact absurd h (by simp)
    | none =>
      rw [hce] at h
      obtain rfl := (Except.ok.injEq _ m).mp h
      rfl
  · intro m fuel src dst c a v e hts hc hcall
    simp [runLoop, StateMachine.eval, hts, evalList, hc,
      invoke_call_err m src dst c v e hcall]

/-- C5 witness: a builder whose only transition goes between undeclared
states and names an absent callable still compiles, and the dangling
callable errors only when Run reaches it. -/
theorem C5_compile_no_validation_witness :
    (∃ m : StateMachine,
      ((New ⟨none, fun _ => .undefinedV,
          fun _ _ _ _ => .error ("func missing")⟩).Transition
        "ghost" "phantom" "nofn" "nofn2").Compile = .ok m)
    ∧ runLoop
        ({ call := fun _ _ _ _ => .error ("func missing")
           entryFns := []
           exitFns := []
           transitions := [("ghost", [⟨"phantom", "nofn", "nofn2"⟩])] }
          : StateMachine)
        (2 + 1) "ghost" (.intV 0) =
        (.err "func missing", [⟨"ghost", "phantom", "nofn", .intV 0⟩]) :=
  ⟨C5_compile_no_validation.1 _ rfl,
   C5_compile_no_validation.2.2 _ 2 "ghost" "phantom" "nofn" "nofn2"
     (.intV 0) "func missing" (by decide) (by decide) rfl⟩

/-- C1: transition selection is first-match-wins in declaration order:
Transition appends to the end of the source state's list; compile keeps
each list verbatim; eval walks that list: an empty condition name selects
the transition immediately with no invocation (short-circuiting the rest),
otherwise the condition callable is invoked with (src, dst, value) and the
transition is selected iff the result is truthy — a falsy result moves on
to the rest of the list, and an exhausted list selects nothing. -/
theorem C1_first_match_wins :
    (∀ (b : Builder) (src dst c a : String),
      tmapLookup (b.Transition src dst c a).transitions src =
        some ((tmapLookup b.transitions src).getD [] ++ [⟨dst, c, a⟩]))
    ∧ (∀ (b : Builder) (m : StateMachine) (s : String),
        b.Compile = .ok m →
        tmapLookup m.transitions s = tmapLookup b.transitions s)
    ∧ (∀ (m : StateMachine) (src : String) (v : Value) (ts : List transition),
        tmapLookup m.transitions src = some ts →
        m.eval src v = evalList m src v ts)
    ∧ (∀ (m : StateMachine) (src : String) (v : Value) (t : transition)
        (rest : List transition), t.condition = "" →
        evalList m src v (t :: rest) = (.ok (some t), []))
    ∧ (∀ (m : StateMachine) (src : String) (v out : Value) (t : transition)
        (rest : List transition), t.condition ≠ "" →
        m.call src t.dst t.condition v = .ok out →
        (∀ x, out ≠ .errorV x) →
        evalList m src v (t :: rest) =
          (if out.toBool then
            (.ok (some t), [⟨src, t.dst, t.condition, v⟩])
           else
            ((evalList m src v rest).1,
             ⟨src, t.dst, t.condition, v⟩ :: (evalList m src v rest).2)))
    ∧ (∀ (m : StateMachine) (src : String) (v : Value),
        evalList m src v [] = (.ok none, [])) := by
  refine ⟨?_, ?_, ?_, ?_, ?_, ?_⟩
  · intro b src dst c a
    exact tmapAppend_lookup b.transitions src ⟨dst, c, a⟩
  · intro b m s h
    rw [compile_transitions_eq b m h]
  · intro m src v ts h
    simp [StateMachine.eval, h]
  · intro m src v t rest h
    simp [evalList, h]
  · intro m src v out t rest hc hcall hne
    rw [evalList]
    simp only [hc, if_neg hc,
      invoke_call_ok m src t.dst t.condition v out hcall hne]
    by_cases hb : out.toBool
    · simp [hb]
    · simp [hb]
  · intro m src v
    rfl

/-- C1 witness: in a two-transition list for S, a falsy first condition
moves on to the second, which is unconditional and selected immediately;
a truthy first condition selects the first; compiling a builder keeps its
appended transition list. -/
theorem C1_first_match_wins_witness :
    (evalList
      ({ call := fun _ _ fn v =>
           if fn = "truthy" then .ok (.boolV (!v.isFalsy)) else .ok .undefined
         entryFns := []
         exitFns := []
         transitions := [("S", [⟨"T", "truthy", ""⟩, ⟨"F", "", ""⟩])] }
        : StateMachine)
      "S" (.intV 0) [⟨"T", "truthy", ""⟩, ⟨"F", "", ""⟩] =
      ((.ok (some ⟨"F", "", ""⟩)),
       [⟨"S", "T", "truthy", .intV 0⟩]))
    ∧ (evalList
        ({ call := fun _ _ fn v =>
             if fn = "truthy" then .ok (.boolV (!v.isFalsy)) else .ok .undefined
           entryFns := []
           exitFns := []
           transitions := [("S", [⟨"T", "truthy", ""⟩, ⟨"F", "", ""⟩])] }
          : StateMachine)
        "S" (.intV 1) [⟨"T", "truthy", ""⟩, ⟨"F", "", ""⟩] =
        ((.ok (some ⟨"T", "truthy", ""⟩)),
         [⟨"S", "T", "truthy", .intV 1⟩])) := by
  constructor
  · have h := C1_first_match_wins.2.2.2.2.1
      ({ call := fun _ _ fn v =>
           if fn = "truthy" then .ok (.boolV (!v.isFalsy)) else .ok .undefined
         entryFns := []
         exitFns := []
         transitions := [("S", [⟨"T", "truthy", ""⟩, ⟨"F", "", ""⟩])] }
        : StateMachine)
      "S" (.intV 0) (.boolV false) ⟨"T", "truthy", ""⟩ [⟨"F", "", ""⟩]
      (by decide) rfl (fun x h => Value.noConfusion h)
    simpa [evalList] using h
  · have h := C1_first_match_wins.2.2.2.2.1
      ({ call := fun _ _ fn v =>
           if fn = "truthy" then .ok (.boolV (!v.isFalsy)) else .ok .undefined
         entryFns := []
         exitFns := []
         transitions := [("S", [⟨"T", "truthy", ""⟩, ⟨"F", "", ""⟩])] }
        : StateMachine)
      "S" (.intV 1) (.boolV true) ⟨"T", "truthy", ""⟩ [⟨"F", "", ""⟩]
      (by decide) rfl (fun x h => Value.noConfusion h)
    simpa using h

/-- C2: side effects of a selected transition (src → dst) run in the fixed
order exit(src), action, entry(dst) — each (when declared and non-empty)
invoked with (src, dst, current value) and each replacing the current
value when its result is not undefined — and the loop then continues from
dst with the resulting value. -/
theorem C2_side_effect_order :
    (∀ (m : StateMachine) (src dst act : String) (v w1 w2 w3 v1 v2 v3 : Value),
      mapGet m.exitFns src ≠ "" → act ≠ "" → mapGet m.entryFns dst ≠ "" →
      m.call src dst (mapGet m.exitFns src) v = .ok w1 →
      (∀ x, w1 ≠ .errorV x) →
      v1 = (if w1.isUndefined then v else w1) →
      m.call src dst act v1 = .ok w2 →
      (∀ x, w2 ≠ .errorV x) →
      v2 = (if w2.isUndefined then v1 else w2) →
      m.call src dst (mapGet m.entryFns dst) v2 = .ok w3 →
      (∀ x, w3 ≠ .errorV x) →
      v3 = (if w3.isUndefined then v2 else w3) →
      m.doTransition src dst act v =
        (.ok v3,
         [⟨src, dst, mapGet m.exitFns src, v⟩,
          ⟨src, dst, act, v1⟩,
          ⟨src, dst, mapGet m.entryFns dst, v2⟩]))
    ∧ (∀ (m : StateMachine) (fuel : Nat) (src : String) (value v : Value)
        (t : transition) (tr tr2 : List CallRec),
        m.eval src value = (.ok (some t), tr) →
        m.doTransition src t.dst t.action value = (.ok v, tr2) →
        runLoop m (fuel + 1) src value =
          ((runLoop m fuel t.dst v).1,
           tr ++ tr2 ++ (runLoop m fuel t.dst v).2)) := by
  constructor
  · intro m src dst act v w1 w2 w3 v1 v2 v3 hex hact hen h1 h1e hv1 h2 h2e hv2
      h3 h3e hv3
    subst hv1 hv2 hv3
    unfold StateMachine.doTransition
    simp only [hookCall_ok m src dst (mapGet m.exitFns src) v w1 hex h1 h1e,
      hookCall_ok m src dst act _ w2 hact h2 h2e,
      hookCall_ok m src dst (mapGet m.entryFns dst) _ w3 hen h3 h3e]
    rfl
  · intro m fuel src value v t tr tr2 he hdo
    rw [runLoop, he]
    simp only [hdo]

/-- C2 witness: with exit "leave" (returns undefined), action "act"
(returns the string "A"), entry "enter" (returns the string "B"), the
three callables run in that order on the right values and the final value
is the entry action's result; afterwards the loop continues from T. -/
theorem C2_side_effect_order_witness :
    (({ call := fun _ _ fn v =>
          if fn = "leave" then .ok .undefined
          else if fn = "act" then .ok (.strV "A")
          else if fn = "enter" then .ok (.strV "B")
          else .ok v
        entryFns := [("T", "enter")]
        exitFns := [("S", "leave")]
        transitions := [] } : StateMachine).doTransition
      "S" "T" "act" (.intV 5) =
      (.ok (.strV "B"),
       [⟨"S", "T", "leave", .intV 5⟩,
        ⟨"S", "T", "act", .intV 5⟩,
        ⟨"S", "T", "enter", .strV "A"⟩]))
    ∧ (runLoop
        ({ call := fun _ _ _ _ => .ok .undefined
           entryFns := []
           exitFns := []
           transitions := [("S", [⟨"T", "", ""⟩])] } : StateMachine)
        (1 + 1) "S" (.intV 5) =
        ((runLoop
           ({ call := fun _ _ _ _ => .ok .undefined
              entryFns := []
              exitFns := []
              transitions := [("S", [⟨"T", "", ""⟩])] } : StateMachine)
           1 "T" (.intV 5)).1,
         [] ++ [] ++
          (runLoop
            ({ call := fun _ _ _ _ => .ok .undefined
               entryFns := []
               exitFns := []
               transitions := [("S", [⟨"T", "", ""⟩])] } : StateMachine)
            1 "T" (.intV 5)).2)) := by
  constructor
  · have h := C2_side_effect_order.1
      ({ call := fun _ _ fn v =>
           if fn = "leave" then .ok .undefined
           else if fn = "act" then .ok (.strV "A")
           else if fn = "enter" then .ok (.strV "B")
           else .ok v
         entryFns := [("T", "enter")]
         exitFns := [("S", "leave")]
         transitions := [] } : StateMachine)
      "S" "T" "act" (.intV 5) .undefined (.strV "A") (.strV "B")
      (.intV 5) (.strV "A") (.strV "B")
      (by decide) (by decide) (by decide)
      rfl (fun x h => Value.noConfusion h) (by decide)
      rfl (fun x h => Value.noConfusion h) (by decide)
      rfl (fun x h => Value.noConfusion h) (by decide)
    simpa using h
  · exact C2_side_effect_order.2
      ({ call := fun _ _ _ _ => .ok .undefined
         entryFns := []
         exitFns := []
         transitions := [("S", [⟨"T", "", ""⟩])] } : StateMachine)
      1 "S" (.intV 5) (.intV 5) ⟨"T", "", ""⟩ [] []
      rfl rfl

/-- C3: no-change propagation: a hook whose callable returns undefined
leaves the current value exactly as it was for all subsequent steps — the
per-step rule, the fact that after an undefined-returning exit and action
the entry hook of dst still receives the original value (and the run
value is only replaced if the entry result is defined), and that a run
whose transition preserves the value returns exactly that value. -/
theorem C3_no_change_propagation :
    (∀ (m : StateMachine) (src dst fn : String) (v : Value), fn ≠ "" →
      m.call src dst fn v = .ok .undefined →
      hookCall m src dst fn v = (.ok v, [⟨src, dst, fn, v⟩]))
    ∧ (∀ (m : StateMachine) (src dst act : String) (v w : Value),
        mapGet m.exitFns src ≠ "" → act ≠ "" → mapGet m.entryFns dst ≠ "" →
        m.call src dst (mapGet m.exitFns src) v = .ok .undefined →
        m.call src dst act v = .ok .undefined →
        m.call src dst (mapGet m.entryFns dst) v = .ok w →
        (∀ x, w ≠ .errorV x) →
        m.doTransition src dst act v =
          (.ok (if w.isUndefined then v else w),
           [⟨src, dst, mapGet m.exitFns src, v⟩,
            ⟨src, dst, act, v⟩,
            ⟨src, dst, mapGet m.entryFns dst, v⟩]))
    ∧ (∀ (m : StateMachine) (fuel : Nat) (src : String) (value : Value)
        (t : transition) (tr tr2 : List CallRec),
        m.eval src value = (.ok (some t), tr) →
        m.doTransition src t.dst t.action value = (.ok value, tr2) →
        tmapLookup m.transitions t.dst = none →
        runLoop m (fuel + 2) src value = (.ok value, tr ++ tr2)) := by
  refine ⟨?_, ?_, ?_⟩
  · intro m src dst fn v hfn h
    have := hookCall_ok m src dst fn v .undefined hfn h
      (fun x hx => Value.noConfusion hx)
    simpa [Value.isUndefined] using this
  · intro m src dst act v w hex hact hen h1 h2 h3 h3e
    unfold StateMachine.doTransition
    simp [hookCall_ok m src dst (mapGet m.exitFns src) v .undefined hex h1
        (fun x hx => Value.noConfusion hx),
      hookCall_ok m src dst act v .undefined hact h2
        (fun x hx => Value.noConfusion hx),
      hookCall_ok m src dst (mapGet m.entryFns dst) v w hen h3 h3e,
      Value.isUndefined]
  · intro m fuel src value t tr tr2 he hdo hnone
    rw [runLoop, he]
    simp only [hdo]
    have h2 : runLoop m (fuel + 1) t.dst value = (.ok value, []) := by
      simp [runLoop, StateMachine.eval, hnone]
    simp [h2]

/-- C3 witness: exit and action return undefined, so the entry hook of T
receives the original value 9, and since the entry result is also
undefined the transition yields exactly 9; a run performing it then
returns 9. -/
theorem C3_no_change_propagation_witness :
    ({ call := fun _ _ _ _ => .ok .undefined
       entryFns := [("T", "enter")]
       exitFns := [("S", "leave")]
       transitions := [] } : StateMachine).doTransition
      "S" "T" "act" (.intV 9) =
      (.ok (.intV 9),
       [⟨"S", "T", "leave", .intV 9⟩,
        ⟨"S", "T", "act", .intV 9⟩,
        ⟨"S", "T", "enter", .intV 9⟩]) := by
  have h := C3_no_change_propagation.2.1
    ({ call := fun _ _ _ _ => .ok .undefined
       entryFns := [("T", "enter")]
       exitFns := [("S", "leave")]
       transitions := [] } : StateMachine)
    "S" "T" "act" (.intV 9) .undefined
    (by decide) (by decide) (by decide)
    rfl rfl rfl (fun x hx => Value.noConfusion hx)
  simpa using h

/-- C4: error abort is immediate and skips the later sequence steps: an
action whose call fails to execute or returns an error object makes
doTransition return that error with no entry invocation recorded; a
failing exit call prevents both the action and the entry from being
invoked; and Run surfaces a doTransition error at once. -/
theorem C4_error_abort :
    (∀ (m : StateMachine) (src dst act : String) (v v1 : Value)
      (t1 : List CallRec) (e : String), act ≠ "" →
      hookCall m src dst (mapGet m.exitFns src) v = (.ok v1, t1) →
      m.call src dst act v1 = .error e →
      m.doTransition src dst act v = (.error e, t1 ++ [⟨src, dst, act, v1⟩]))
    ∧ (∀ (m : StateMachine) (src dst act : String) (v v1 x : Value)
        (t1 : List CallRec), act ≠ "" →
        hookCall m src dst (mapGet m.exitFns src) v = (.ok v1, t1) →
        m.call src dst act v1 = .ok (.errorV x) →
        m.doTransition src dst act v =
          (.error (Value.render (.errorV x)), t1 ++ [⟨src, dst, act, v1⟩]))
    ∧ (∀ (m : StateMachine) (src dst act : String) (v : Value) (e : String),
        mapGet m.exitFns src ≠ "" →
        m.call src dst (mapGet m.exitFns src) v = .error e →
        m.doTransition src dst act v =
          (.error e, [⟨src, dst, mapGet m.exitFns src, v⟩]))
    ∧ (∀ (m : StateMachine) (fuel : Nat) (src : String) (value : Value)
        (t : transition) (tr tr2 : List CallRec) (e : String),
        m.eval src value = (.ok (some t), tr) →
        m.doTransition src t.dst t.action value = (.error e, tr2) →
        runLoop m (fuel + 1) src value = (.err e, tr ++ tr2)) := by
  refine ⟨?_, ?_, ?_, ?_⟩
  · intro m src dst act v v1 t1 e hact hex hcall
    unfold StateMachine.doTransition
    simp only [hex, hookCall_call_err m src dst act v1 e hact hcall]
  · intro m src dst act v v1 x t1 hact hex hcall
    unfold StateMachine.doTransition
    simp only [hex, hookCall_call_errV m src dst act v1 x hact hcall]
  · intro m src dst act v e hex hcall
    unfold StateMachine.doTransition
    simp only [hookCall_call_err m src dst (mapGet m.exitFns src) v e hex hcall]
  · intro m fuel src value t tr tr2 e he hdo
    rw [runLoop, he]
    simp only [hdo]

/-- C4 witness: the S→T action returns error("an error occurred"): the
transition aborts with that error after exit and action only — the entry
action of T is never invoked — and the run returns the error. -/
theorem C4_error_abort_witness :
    ({ call := fun _ _ fn _ =>
         if fn = "boom" then .ok (.errorV (.strV "an error occurred"))
         else .ok .undefined
       entryFns := [("T", "enter")]
       exitFns := [("S", "leave")]
       transitions := [] } : StateMachine).doTransition
      "S" "T" "boom" (.intV 2) =
      (.error (Value.render (.errorV (.strV "an error occurred"))),
       [⟨"S", "T", "leave", .intV 2⟩] ++ [⟨"S", "T", "boom", .intV 2⟩]) := by
  have h := C4_error_abort.2.1
    ({ call := fun _ _ fn _ =>
         if fn = "boom" then .ok (.errorV (.strV "an error occurred"))
         else .ok .undefined
       entryFns := [("T", "enter")]
       exitFns := [("S", "leave")]
       transitions := [] } : StateMachine)
    "S" "T" "boom" (.intV 2) (.intV 2) (.strV "an error occurred")
    [⟨"S", "T", "leave", .intV 2⟩]
    (by decide) rfl rfl
  exact h

/-- C6: a transition whose destination names an undeclared state makes
Validate fail with a StateNotFound diagnostic naming the transition's
SOURCE state, not the missing destination: for a builder declaring s
(with entry/exit names that validate when non-empty) and a transition
from s to an undeclared d, Validate reports "state 's' not found". -/
theorem C6_dst_not_found_reports_src (u : UserScript)
    (s d entryF exitF cond act : String)
    (hce : u.compileError = none) (hs : s ≠ "")
    (hent : entryF ≠ "" → validateFunc u entryF = none)
    (hext : exitF ≠ "" → validateFunc u exitF = none)
    (hd : d ≠ s) :
    (((New u).State s entryF exitF).Transition s d cond act).Validate =
      some ("state " ++ sq s ++ " not found") := by
  have hmaps :
      ((New u).State s entryF exitF).Transition s d cond act =
        { userScript := u
          entryFns := [(s, entryF)]
          exitFns := [(s, exitF)]
          transitions := [(s, [⟨d, cond, act⟩])] } := by
    simp [New, Builder.State, Builder.Transition, mapInsert, tmapAppend]
  rw [hmaps]
  unfold Builder.Validate Builder.validate
  rw [hce]
  have hstates :
      validateStates u [(s, exitF)] [(s, entryF)] = none := by
    unfold validateStates
    rw [if_neg hs]
    have he1 : (if entryF ≠ "" then validateFunc u entryF else none) = none := by
      by_cases h : entryF = ""
      · simp [h]
      · simp [h, hent h]
    have he2 :
        (if mapGet [(s, exitF)] s ≠ "" then validateFunc u (mapGet [(s, exitF)] s)
         else none) = none := by
      have hget : mapGet [(s, exitF)] s = exitF := by
        simp [mapGet, mapLookup]
      rw [hget]
      by_cases h : exitF = ""
      · simp [h]
      · simp [h, hext h]
    simp only [he1, he2]
    rfl
  rw [hstates]
  have hsrc : (mapLookup [(s, entryF)] s).isNone = false := by
    simp [mapLookup]
  have hbd : (s == d) = false := beq_eq_false_iff_ne.mpr (Ne.symm hd)
  have hdst : (mapLookup [(s, entryF)] d).isNone = true := by
    simp [mapLookup, List.find?, hbd]
  unfold validateTrans
  rw [hsrc]
  unfold validateTransList
  rw [hdst]
  rfl

/-- C6 witness: states s1 declared, transition s1 → s2 with s2 undeclared:
Validate fails with "state 's1' not found". -/
theorem C6_dst_not_found_reports_src_witness :
    (((New ⟨none, fun _ => ProbeOut.callable, fun _ _ _ v => .ok v⟩).State
        "s1" "" "").Transition "s1" "s2" "" "").Validate =
      some ("state " ++ sq "s1" ++ " not found") :=
  C6_dst_not_found_reports_src _ "s1" "s2" "" "" "" ""
    rfl (by decide) (fun h => absurd rfl h) (fun h => absurd rfl h) (by decide)

/-- C7: arity rule: a name resolving to a function declared with N ≠ 3
parameters (plain or closure) fails Validate with exactly
"function 'name' wrong number of arguments: want 3 got N", whether the
name is referenced as an entry, exit, condition, or action. -/
theorem C7_wrong_arity (u : UserScript) (s name : String) (n : Nat)
    (hce : u.compileError = none) (hs : s ≠ "") (hname : name ≠ "")
    (hp : u.probe name = .compiledFunction n ∨ u.probe name = .closure n)
    (hn : n ≠ 3) :
    ((New u).State s name "").Validate =
      some ("function " ++ sq name ++
        " wrong number of arguments: want 3 got " ++ toString n)
    ∧ ((New u).State s "" name).Validate =
      some ("function " ++ sq name ++
        " wrong number of arguments: want 3 got " ++ toString n)
    ∧ (((New u).State s "" "").Transition s s name "").Validate =
      some ("function " ++ sq name ++
        " wrong number of arguments: want 3 got " ++ toString n)
    ∧ (((New u).State s "" "").Transition s s "" name).Validate =
      some ("function " ++ sq name ++
        " wrong number of arguments: want 3 got " ++ toString n) := by
  have hvf : validateFunc u name =
      some ("function " ++ sq name ++
        " wrong number of arguments: want 3 got " ++ toString n) := by
    rcases hp with h | h <;> simp [validateFunc, h, hn]
  refine ⟨?_, ?_, ?_, ?_⟩
  · have hmaps : (New u).State s name "" =
        { userScript := u
          entryFns := [(s, name)]
          exitFns := [(s, "")]
          transitions := [] } := by
      simp [New, Builder.State, mapInsert]
    rw [hmaps]
    simp [Builder.Validate, Builder.validate, hce, validateStates,
      validateTrans, mapGet, mapLookup, List.find?, hs, hname, hvf]
  · have hmaps : (New u).State s "" name =
        { userScript := u
          entryFns := [(s, "")]
          exitFns := [(s, name)]
          transitions := [] } := by
      simp [New, Builder.State, mapInsert]
    rw [hmaps]
    simp [Builder.Validate, Builder.validate, hce, validateStates,
      validateTrans, mapGet, mapLookup, List.find?, hs, hname, hvf]
  · have hmaps : ((New u).State s "" "").Transition s s name "" =
        { userScript := u
          entryFns := [(s, "")]
          exitFns := [(s, "")]
          transitions := [(s, [⟨s, name, ""⟩])] } := by
      simp [New, Builder.State, Builder.Transition, mapInsert, tmapAppend]
    rw [hmaps]
    simp [Builder.Validate, Builder.validate, hce, validateStates,
      validateTrans, validateTransList, mapGet, mapLookup, List.find?,
      hs, hname, hvf]
  · have hmaps : ((New u).State s "" "").Transition s s "" name =
        { userScript := u
          entryFns := [(s, "")]
          exitFns := [(s, "")]
          transitions := [(s, [⟨s, "", name⟩])] } := by
      simp [New, Builder.State, Builder.Transition, mapInsert, tmapAppend]
    rw [hmaps]
    simp [Builder.Validate, Builder.validate, hce, validateStates,
      validateTrans, validateTransList, mapGet, mapLookup, List.find?,
      hs, hname, hvf]

/-- C7 witness: fn3 declared with 2 parameters, referenced as the entry
action of state s1: Validate fails with the exact wrong-arity message for
N = 2. -/
theorem C7_wrong_arity_witness :
    ((New ⟨none,
        fun f => if f = "fn3" then .compiledFunction 2 else .callable,
        fun _ _ _ v => .ok v⟩).State "s1" "fn3" "").Validate =
      some ("function " ++ sq "fn3" ++
        " wrong number of arguments: want 3 got " ++ toString 2) :=
  (C7_wrong_arity _ "s1" "fn3" 2 rfl (by decide) (by decide)
    (Or.inl rfl) (by decide)).1

end fsm
